import Mathlib

/-!
Verification development for the speech-recognition orchestration layer of
`obsidian-smart-workflow` (`src/rust-servers/src/voice/asr/`).

The Rust sources are shallowly embedded: pure helper functions become Lean
functions on `List Char` / `List Nat`; the retrying loops and the realtime
task loop become explicit recursions whose external effects (provider calls,
channel receives, observed fallback-slot contents, send outcomes) are
supplied as input sequences; machine integers are `Nat`/`Int` with explicit
`% 2 ^ w` where Rust release-mode wrapping matters.
-/

namespace Asr

/-! ## Punctuation stripping (`http/{qwen,doubao,sensevoice}.rs`, `realtime/qwen.rs`)

The three HTTP engines declare byte-identical `punctuation` arrays inside
`strip_trailing_punctuation`; the Qwen realtime engine's `strip_punctuation`
uses the same array extended with U+2018 and U+2019.  Strings are modelled
as `List Char` (Rust iterates over `chars()`). -/

/-- Punctuation array of `strip_trailing_punctuation` (identical in
`http/qwen.rs:186`, `http/doubao.rs:192`, `http/sensevoice.rs:173`; the
ASCII double quote appears three times in the source array). -/
def asr_punctuation : List Char :=
  ['。', '，', '！', '？', '、', '；', '：', '"', '"',
   '.', ',', '!', '?', ';', ':', '"', '\'',
   '（', '）', '(', ')', '【', '】', '[', ']',
   '《', '》', '<', '>', '—', '…', '·']

/-- Punctuation array of `strip_punctuation` in `realtime/qwen.rs:345`:
the shared array plus `'\u{2018}'` and `'\u{2019}'`. -/
def qwen_rt_punctuation : List Char :=
  ['。', '，', '！', '？', '、', '；', '：', '"', '"',
   '.', ',', '!', '?', ';', ':', '"', '\'',
   '（', '）', '(', ')', '【', '】', '[', ']',
   '《', '》', '<', '>', '—', '…', '·',
   '‘', '’']

/-- Popping loop of `strip_trailing_punctuation`, expressed on the reversed
character list: the Rust `while let Some(c) = text.chars().last()` loop pops
the last character while it is in the punctuation set, which is exactly
dropping leading punctuation characters of the reversed list. -/
def strip_trailing_go : List Char → List Char
  | [] => []
  | c :: rest =>
      if asr_punctuation.contains c then strip_trailing_go rest else c :: rest

/-- Model of `strip_trailing_punctuation` (`http/qwen.rs:185`,
`http/doubao.rs:191`, `http/sensevoice.rs:172`). -/
def strip_trailing_punctuation (s : List Char) : List Char :=
  (strip_trailing_go s.reverse).reverse

/-- Model of `strip_punctuation` (`realtime/qwen.rs:344`): removes every
punctuation character, mid-string as well as trailing. -/
def strip_punctuation (s : List Char) : List Char :=
  s.filter (fun c => !(qwen_rt_punctuation.contains c))

/-! ## Error and result types (`asr/mod.rs`) -/

/-- Model of `ASRError` (`asr/mod.rs:26`).  Error display strings are kept
where loops observe them via `to_string()`; the `thiserror` format
renderings themselves are not modelled. -/
inductive ASRError where
  | NetworkError (msg : String)
  | AuthFailed (engine : String) (message : String)
  | QuotaExceeded (engine : String)
  | InvalidAudio (msg : String)
  | Timeout (timeout_ms : Nat)
  | WebSocketError (msg : String)
  | AllEnginesFailed (primary_error : String) (fallback_error : Option String)
  | NotInitialized
  | UnsupportedOperation (msg : String)
  | ConfigError (msg : String)
  | InternalError (msg : String)
  deriving Repr, DecidableEq

/-- Model of `RetryConfig` (`asr/mod.rs:172`). -/
structure RetryConfig where
  max_retries : Nat
  base_delay_ms : Nat
  timeout_ms : Nat
  deriving Repr, DecidableEq

/-- Model of `RetryConfig::default` (`asr/mod.rs:178`). -/
def RetryConfig.default : RetryConfig :=
  { max_retries := 2, base_delay_ms := 500, timeout_ms := 6000 }

/-- Model of `TranscriptionResult` (`asr/mod.rs:104`) without the
wall-clock `duration_ms` field, which is not representable in a pure
embedding and is referenced by no claim. -/
structure TranscriptionResult where
  text : String
  engine : String
  used_fallback : Bool
  deriving Repr, DecidableEq

/-! ## Retry delay schedule

Every retrying loop in the repository computes the backoff delay before
attempt `k ≥ 1` as `base_delay_ms * (1u64 << (k - 1))` in `u64` arithmetic
(`http/qwen.rs:152`, `http/doubao.rs:149`, `http/sensevoice.rs:139`,
`fallback.rs:65`, `fallback.rs:243`, `fallback.rs:380`).  Rust release
semantics mask the shift amount by 63 and wrap the product modulo `2 ^ 64`. -/

/-- Backoff delay in milliseconds slept before retry attempt `k ≥ 1`. -/
def retryDelayMs (cfg : RetryConfig) (k : Nat) : Nat :=
  (cfg.base_delay_ms * 2 ^ ((k - 1) % 64)) % 2 ^ 64

/-! ## HTTP engine one-shot `transcribe` loop

`QwenHttpEngine::transcribe` (`http/qwen.rs:142`),
`DoubaoHttpEngine::transcribe` (`http/doubao.rs:139`) and
`SenseVoiceHttpEngine::transcribe` (`http/sensevoice.rs:129`) are
structurally identical: reject empty audio, then run
`for attempt in 0..=max_retries`, sleeping the backoff delay before every
attempt except the first and calling `transcribe_once`; first success
returns, otherwise the last error is returned.  The network-facing
`transcribe_once` is modelled as an oracle `once : Nat → Except ASRError
String` giving each attempt's outcome, and the loop's observable behaviour
is collected in a trace (result, number of provider-call attempts, slept
delays in order). -/

/-- Audio buffer handed to `transcribe`; only emptiness is inspected by the
code under scrutiny (`audio.is_empty()`). -/
structure AudioData where
  samples : List Int
  deriving Repr, DecidableEq

/-- Observable trace of one engine `transcribe` call. -/
structure LoopTrace where
  result : Except ASRError String
  calls : Nat
  delays : List Nat
  deriving Repr

/-- Retry loop body, iterating over the remaining attempt indices
(`attempts`), threading the last error as the `for` loop does. -/
def runAttempts (cfg : RetryConfig) (once : Nat → Except ASRError String) :
    List Nat → Option ASRError → LoopTrace
  | [], last =>
      { result := .error (last.getD (.InternalError "转录失败，未知错误")),
        calls := 0, delays := [] }
  | a :: rest, _ =>
      let ds := if a > 0 then [retryDelayMs cfg a] else []
      match once a with
      | .ok text => { result := .ok text, calls := 1, delays := ds }
      | .error e =>
          let t := runAttempts cfg once rest (some e)
          { result := t.result, calls := t.calls + 1, delays := ds ++ t.delays }

/-- Model of the three HTTP engines' `transcribe`. -/
def engineTranscribe (cfg : RetryConfig) (once : Nat → Except ASRError String)
    (audio : AudioData) : LoopTrace :=
  if audio.samples.isEmpty then
    { result := .error (.InvalidAudio "音频数据为空"), calls := 0, delays := [] }
  else
    runAttempts cfg once (List.range (cfg.max_retries + 1)) none

/-! ## Race orchestrator (`fallback.rs:185` `RaceStrategy::transcribe`)

The async interleaving is embedded by supplying, as inputs, the outcomes of
the external interactions: the primary engine's per-attempt result, the
contents of the shared fallback slot (`Arc<Mutex<Option<Result<String,
String>>>>`) as observed at each pre-delay checkpoint, and the outcome of
the final `handle.await`.  The slot is written only by the spawned fallback
task, so when no task is spawned the observed slot is `none`.  Engine
errors are carried as their display strings, which is how the loop stores
them (`e.to_string()`). -/

/-- Outcome of `handle.await` at the end of `RaceStrategy::transcribe`:
`Ok(Ok(text))`, `Ok(Err(e))` (fallback engine creation or transcription
failed) or `Err(join_error)`. -/
inductive RaceAwaitOutcome where
  | ok (text : String)
  | err (msg : String)
  | joinErr (msg : String)
  deriving Repr, DecidableEq

/-- Inputs of one `RaceStrategy::transcribe` run.  `fallbackPresent` is
`enable_fallback && fallback_config.is_some()`; `slotAt k` is the slot
content observed at the checkpoint executed before the delay of attempt
`k ≥ 1`. -/
structure RaceInput where
  fallbackPresent : Bool
  primaryName : String
  fallbackName : String
  primary : Nat → Except String String
  slotAt : Nat → Option (Except String String)
  finalFallback : RaceAwaitOutcome

/-- Observable trace of one `RaceStrategy::transcribe` run. `cancelled`
records whether `handle.abort()` was called; `awaitedFallback` whether the
final `handle.await` ran. -/
structure RaceTrace where
  result : Except ASRError TranscriptionResult
  primaryCalls : Nat
  delays : List Nat
  cancelled : Bool
  awaitedFallback : Bool

/-- Post-loop tail of `RaceStrategy::transcribe` (`fallback.rs:289`): all
primary attempts have failed; if the background task exists it is awaited
and its outcome decides the result, otherwise the aggregate error carries
no fallback error. -/
def raceFinal (inp : RaceInput) (errs : List String) : RaceTrace :=
  if inp.fallbackPresent then
    match inp.finalFallback with
    | .ok text =>
        { result := .ok ⟨text, inp.fallbackName, true⟩,
          primaryCalls := 0, delays := [], cancelled := false,
          awaitedFallback := true }
    | .err e =>
        { result := .error
            (.AllEnginesFailed (String.intercalate "; " errs) (some e)),
          primaryCalls := 0, delays := [], cancelled := false,
          awaitedFallback := true }
    | .joinErr j =>
        { result := .error
            (.AllEnginesFailed (String.intercalate "; " errs)
              (some ("后台任务失败: " ++ j))),
          primaryCalls := 0, delays := [], cancelled := false,
          awaitedFallback := true }
  else
    { result := .error
        (.AllEnginesFailed (String.intercalate "; " errs) none),
      primaryCalls := 0, delays := [], cancelled := false,
      awaitedFallback := false }

/-- Loop of `RaceStrategy::transcribe` from attempt index `attempt` with
`remaining` attempts left and accumulated primary error strings `errs`. -/
def raceGo (cfg : RetryConfig) (inp : RaceInput) :
    Nat → Nat → List String → RaceTrace
  | _, 0, errs => raceFinal inp errs
  | attempt, r + 1, errs =>
      let checkpoint :=
        if attempt > 0 ∧ inp.fallbackPresent then inp.slotAt attempt else none
      match checkpoint with
      | some (.ok text) =>
          { result := .ok ⟨text, inp.fallbackName, true⟩,
            primaryCalls := 0, delays := [], cancelled := true,
            awaitedFallback := false }
      | _ =>
          let ds := if attempt > 0 then [retryDelayMs cfg attempt] else []
          match inp.primary attempt with
          | .ok text =>
              { result := .ok ⟨text, inp.primaryName, false⟩,
                primaryCalls := 1, delays := ds,
                cancelled := inp.fallbackPresent, awaitedFallback := false }
          | .error e =>
              let t := raceGo cfg inp (attempt + 1) r (errs ++ [e])
              { result := t.result, primaryCalls := t.primaryCalls + 1,
                delays := ds ++ t.delays, cancelled := t.cancelled,
                awaitedFallback := t.awaitedFallback }

/-- Model of `RaceStrategy::transcribe`: the loop runs attempts
`0 ..= max_retries`. -/
def raceTranscribe (cfg : RetryConfig) (inp : RaceInput) : RaceTrace :=
  raceGo cfg inp 0 (cfg.max_retries + 1) []

/-- Successful-slot projection: the race checkpoint reacts only to
`Some(Ok(text))`; `None` and `Some(Err(_))` both fall through. -/
def slotOk : Option (Except String String) → Option String
  | some (.ok t) => some t
  | _ => none

/-! ## Realtime transcription task (`realtime_task.rs:109`
`RealtimeTranscriptionTask::run_with_details`)

The `tokio::select!` loop is embedded as a fold over the sequence of loop
inputs it observes: a stop signal, a received chunk together with its
`send_chunk` outcome (`none` = `Ok(())`, `some e` = failure with display
string `e`), or the chunk channel closing.  The final `session.close()`
outcome is a parameter. -/

/-- One observed loop input of the realtime task. -/
inductive TaskEvent where
  | stop
  | chunk (samples : List Int) (send : Option String)
  | sourceClosed
  deriving Repr, DecidableEq

/-- Loop counters of the realtime task. -/
structure TaskState where
  chunks : Nat
  samples : Nat
  consecutive : Nat
  deriving Repr, DecidableEq

/-- Model of `RealtimeTaskResult` (`realtime_task.rs:37`), with
`TranscriptionResult` lacking the wall-clock duration field. -/
inductive RealtimeTaskResult where
  | success (result : TranscriptionResult)
  | failed (error : ASRError) (engine_name : String)
      (chunks_sent : Nat) (samples_sent : Nat)
  deriving Repr, DecidableEq

/-- Circuit-breaker ceiling (`realtime_task.rs:165`). -/
def MAX_CONSECUTIVE_FAILURES : Nat := 5

/-- Result of processing one loop input. -/
inductive TaskStep where
  | next (st : TaskState)
  | finish (st : TaskState)
  | abort (o : RealtimeTaskResult)
  deriving Repr, DecidableEq

/-- One iteration of the task loop (`realtime_task.rs:167`): a chunk bumps
the counters before the send is attempted; a successful send resets the
consecutive-failure counter, a failed send increments it and aborts the
task once it reaches the ceiling. -/
def taskStep (engineName : String) (st : TaskState) : TaskEvent → TaskStep
  | .stop => .finish st
  | .sourceClosed => .finish st
  | .chunk samples send =>
      let chunks := st.chunks + 1
      let total := st.samples + samples.length
      match send with
      | none => .next ⟨chunks, total, 0⟩
      | some e =>
          let k := st.consecutive + 1
          if MAX_CONSECUTIVE_FAILURES ≤ k then
            .abort (.failed
              (.WebSocketError ("连续 " ++ toString k ++ " 次发送失败: " ++ e))
              engineName chunks total)
          else .next ⟨chunks, total, k⟩

/-- Post-loop tail (`realtime_task.rs:240`): `session.close()` either
yields the final text (a success not flagged as fallback) or a failure
record carrying the traffic counters. -/
def taskClose (engineName : String) (closeResult : Except ASRError String)
    (st : TaskState) : RealtimeTaskResult :=
  match closeResult with
  | .ok text => .success ⟨text, engineName, false⟩
  | .error e => .failed e engineName st.chunks st.samples

/-- Model of the `run_with_details` loop over the observed inputs.  An
exhausted input list behaves like the chunk channel closing (the real loop
would otherwise block forever). -/
def taskRun (engineName : String) (closeResult : Except ASRError String) :
    List TaskEvent → TaskState → RealtimeTaskResult
  | [], st => taskClose engineName closeResult st
  | ev :: rest, st =>
      match taskStep engineName st ev with
      | .next st' => taskRun engineName closeResult rest st'
      | .finish st' => taskClose engineName closeResult st'
      | .abort o => o

/-! ## Streaming receiver terminal results
(`realtime/doubao.rs:203` and `realtime/qwen.rs:178`, receiver tasks)

Each receiver task is a fold over the incoming websocket messages,
delivering at most one terminal result through the oneshot channel.  The
Doubao receiver consumes `parse_response` outcomes (the byte-level frame
codec is modelled separately below); the Qwen receiver consumes parsed
JSON events. -/

instance {ε α : Type} [DecidableEq ε] [DecidableEq α] :
    DecidableEq (Except ε α) := fun a b =>
  match a, b with
  | .ok x, .ok y =>
      if h : x = y then .isTrue (by rw [h]) else .isFalse (by simp [h])
  | .error x, .error y =>
      if h : x = y then .isTrue (by rw [h]) else .isFalse (by simp [h])
  | .ok _, .error _ => .isFalse (fun h => Except.noConfusion h)
  | .error _, .ok _ => .isFalse (fun h => Except.noConfusion h)

/-- One incoming message as seen by the Doubao receiver loop: a binary
frame (represented by its `parse_response` outcome), a close frame, any
other frame kind, or a receive error with display string `e`. -/
inductive DoubaoWsMsg where
  | binary (parsed : Except String (String × Bool))
  | close
  | other
  | recvError (e : String)
  deriving Repr, DecidableEq

/-- Model of the Doubao receiver task (`realtime/doubao.rs:203`): text of a
parsed response replaces the accumulated text when non-empty; a final flag
resolves with the accumulated text; a close frame resolves with the
accumulated text when non-empty and with a wire error otherwise; a receive
error always resolves with a wire error; end of stream behaves like the
close frame but with a different message. -/
def doubaoReceiver : List DoubaoWsMsg → String → Except ASRError String
  | [], acc =>
      if acc ≠ "" then .ok acc
      else .error (.WebSocketError "WebSocket 连接结束，无转录结果")
  | msg :: rest, acc =>
      match msg with
      | .binary (.ok (text, isFinal)) =>
          let acc' := if text ≠ "" then text else acc
          if isFinal then .ok acc' else doubaoReceiver rest acc'
      | .binary (.error _) => doubaoReceiver rest acc
      | .close =>
          if acc ≠ "" then .ok acc
          else .error (.WebSocketError "WebSocket 连接被关闭")
      | .other => doubaoReceiver rest acc
      | .recvError e => .error (.WebSocketError ("WebSocket 错误: " ++ e))

/-- One parsed JSON event of the Qwen realtime protocol, as matched on
`data["type"]` by the receiver (`realtime/qwen.rs:190`).  Payload fields
that the code reads with `as_str()` are carried as `Option String`. -/
inductive QwenEvent where
  | sessionInfo
  | committed
  | transcriptionCompleted (transcript : Option String)
  | transcriptDelta (delta : Option String)
  | transcriptDone (transcript : Option String)
  | responseDone
  | errorEvent (msg : String)
  | unknown
  deriving Repr, DecidableEq

/-- One incoming message as seen by the Qwen receiver loop. -/
inductive QwenWsMsg where
  | text (ev : QwenEvent)
  | unparseable
  | close
  | other
  | recvError (e : String)
  deriving Repr, DecidableEq

/-- Model of the Qwen receiver task (`realtime/qwen.rs:178`), returning the
terminal result sent on the oneshot channel, or `none` when the loop ends
without sending one (close frame after a completion event whose text is
empty).  After every processed text/other message the loop checks
`has_result && !final_text.is_empty()` and resolves with the
punctuation-stripped text; a close frame breaks out of the loop, whose tail
sends an internal error only when no completion event was seen; a receive
error or an `error` event resolves immediately with a wire error. -/
def qwenReceiver : List QwenWsMsg → String → Bool →
    Option (Except ASRError String)
  | [], _, hasResult =>
      if hasResult then none
      else some (.error (.InternalError "未收到转录结果"))
  | msg :: rest, finalText, hasResult =>
      match msg with
      | .close =>
          if hasResult then none
          else some (.error (.InternalError "未收到转录结果"))
      | .recvError e =>
          some (.error (.WebSocketError ("WebSocket 错误: " ++ e)))
      | .text (.errorEvent m) =>
          some (.error (.WebSocketError ("API 错误: " ++ m)))
      | .text ev =>
          let st : String × Bool :=
            match ev with
            | .transcriptionCompleted (some tr) => (tr, true)
            | .transcriptDelta (some d) => (finalText ++ d, hasResult)
            | .transcriptDone (some tr) => (tr, true)
            | .transcriptDone none => (finalText, true)
            | .responseDone => (finalText, true)
            | _ => (finalText, hasResult)
          if st.2 ∧ st.1 ≠ "" then
            some (.ok (String.mk (strip_punctuation st.1.data)))
          else qwenReceiver rest st.1 st.2
      | .unparseable =>
          if hasResult ∧ finalText ≠ "" then
            some (.ok (String.mk (strip_punctuation finalText.data)))
          else qwenReceiver rest finalText hasResult
      | .other =>
          if hasResult ∧ finalText ≠ "" then
            some (.ok (String.mk (strip_punctuation finalText.data)))
          else qwenReceiver rest finalText hasResult

/-! ## Doubao binary frame codec (`realtime/doubao.rs:347` `build_message`,
`realtime/doubao.rs:379` `parse_response`)

Bytes are `Nat` values below 256.  The external gzip codec (`flate2`) is a
parameter: a compressor together with a fallible decompressor; round-trip
correctness of the library is a hypothesis of the round-trip theorem.
`parse_response` is modelled up to the point where the decompressed payload
(`json_str`) is in hand; the subsequent `serde_json` field extraction is
external and is consumed pre-parsed by the receiver model above. -/

/-- External gzip codec. -/
structure GzipCodec where
  compress : List Nat → List Nat
  decompress : List Nat → Except String (List Nat)

/-- Big-endian bytes of a `u32` value. -/
def u32be (n : Nat) : List Nat :=
  [n / 2 ^ 24 % 256, n / 2 ^ 16 % 256, n / 2 ^ 8 % 256, n % 256]

/-- Big-endian bytes of an `i32` value (two's complement). -/
def i32be (n : Int) : List Nat :=
  u32be (n % 2 ^ 32).toNat

/-- Model of `build_message` (`realtime/doubao.rs:347`): gzip the payload
when the compression nibble is `0x1`, set the serialization nibble to JSON
exactly for message type `0x1`, then emit the 4-byte header, the big-endian
sequence, the big-endian payload length and the payload. -/
def build_message (gz : GzipCodec) (msg_type flags : Nat) (sequence : Int)
    (payload : List Nat) (compression_type : Nat) : List Nat :=
  let final_payload :=
    if compression_type == 0x1 then gz.compress payload else payload
  let serialization := if msg_type == 0x1 then 0x1 else 0x0
  [0x11,
   ((msg_type <<< 4) % 256) ||| (flags % 16),
   ((serialization <<< 4) % 256) ||| (compression_type % 16),
   0x00]
    ++ i32be sequence
    ++ u32be (final_payload.length % 2 ^ 32)
    ++ final_payload

/-- Big-endian `u32` read at offset `o` (`u32::from_be_bytes`). -/
def read_u32be (data : List Nat) (o : Nat) : Nat :=
  data.getD o 0 * 2 ^ 24 + data.getD (o + 1) 0 * 2 ^ 16 +
    data.getD (o + 2) 0 * 2 ^ 8 + data.getD (o + 3) 0

/-- Model of `parse_response` (`realtime/doubao.rs:379`) up to the
decompressed payload: header checks, server-error frames, optional echoed
sequence (low flag bit), payload length, bounds checks, and gzip routing by
the compression nibble.  Returns the payload bytes (`json_str`) and the
message flags. -/
def parse_response_frame (gz : GzipCodec) (data : List Nat) :
    Except String (List Nat × Nat) :=
  if data.length < 4 then .error "响应太短"
  else
    let header_size := data.getD 0 0 % 16 * 4
    let message_type := data.getD 1 0 / 16
    let message_flags := data.getD 1 0 % 16
    let compression := data.getD 2 0 % 16
    if message_type == 0xf then
      .error ("服务器返回错误: code=" ++
        toString (if header_size + 4 ≤ data.length
          then read_u32be data header_size else 0))
    else
      let offset :=
        if message_flags % 2 == 1 then header_size + 4 else header_size
      if message_flags % 2 == 1 ∧ data.length < header_size + 4 then
        .error "数据不足以包含 sequence"
      else if data.length < offset + 4 then .error "数据不足以包含 payload size"
      else
        let payload_size := read_u32be data offset
        if data.length < offset + 4 + payload_size then .error "数据不完整"
        else
          let payload_data := (data.drop (offset + 4)).take payload_size
          if compression == 1 then
            match gz.decompress payload_data with
            | .ok s => .ok (s, message_flags)
            | .error e => .error ("Gzip 解压失败: " ++ e)
          else .ok (payload_data, message_flags)

/-! ## Sequential fallback orchestrator (`fallback.rs:59`
`FallbackStrategy::transcribe`)

Same retry loop as the race strategy but with no background task: after the
primary exhausts its attempts, the fallback engine (when enabled and
present) is invoked exactly once. -/

/-- Inputs of one `FallbackStrategy::transcribe` run. -/
structure SeqInput where
  enable_fallback : Bool
  fallbackPresent : Bool
  primaryName : String
  fallbackName : String
  primary : Nat → Except String String
  fallbackResult : Except String String

/-- Observable trace of one `FallbackStrategy::transcribe` run. -/
structure SeqTrace where
  result : Except ASRError TranscriptionResult
  primaryCalls : Nat
  fallbackCalls : Nat
  delays : List Nat

/-- Post-loop tail of `FallbackStrategy::transcribe` (`fallback.rs:107`). -/
def seqFinal (inp : SeqInput) (errs : List String) : SeqTrace :=
  if inp.enable_fallback ∧ inp.fallbackPresent then
    match inp.fallbackResult with
    | .ok t =>
        { result := .ok ⟨t, inp.fallbackName, true⟩,
          primaryCalls := 0, fallbackCalls := 1, delays := [] }
    | .error e =>
        { result := .error
            (.AllEnginesFailed (String.intercalate "; " errs) (some e)),
          primaryCalls := 0, fallbackCalls := 1, delays := [] }
  else
    { result := .error
        (.AllEnginesFailed (String.intercalate "; " errs) none),
      primaryCalls := 0, fallbackCalls := 0, delays := [] }

/-- Retry loop of `FallbackStrategy::transcribe` (`fallback.rs:63`). -/
def seqGo (cfg : RetryConfig) (inp : SeqInput) :
    Nat → Nat → List String → SeqTrace
  | _, 0, errs => seqFinal inp errs
  | attempt, r + 1, errs =>
      let ds := if attempt > 0 then [retryDelayMs cfg attempt] else []
      match inp.primary attempt with
      | .ok text =>
          { result := .ok ⟨text, inp.primaryName, false⟩,
            primaryCalls := 1, fallbackCalls := 0, delays := ds }
      | .error e =>
          let t := seqGo cfg inp (attempt + 1) r (errs ++ [e])
          { result := t.result, primaryCalls := t.primaryCalls + 1,
            fallbackCalls := t.fallbackCalls, delays := ds ++ t.delays }

/-- Model of `FallbackStrategy::transcribe`. -/
def seqTranscribe (cfg : RetryConfig) (inp : SeqInput) : SeqTrace :=
  seqGo cfg inp 0 (cfg.max_retries + 1) []

/-- Masking of checkpoint slot observations that replaces a stored fallback
error by an empty slot, leaving successful results untouched. -/
def maskSlotErr (s : Nat → Option (Except String String)) :
    Nat → Option (Except String String) := fun j =>
  match s j with
  | some (.error _) => none
  | v => v

/-! ## Supporting lemmas -/

lemma strip_trailing_go_head_not_punct (l : List Char) :
    ∀ c, (strip_trailing_go l).head? = some c →
      asr_punctuation.contains c = false := by
  induction l with
  | nil => intro c h; simp [strip_trailing_go] at h
  | cons a rest ih =>
      intro c h
      by_cases hp : asr_punctuation.contains a
      · rw [strip_trailing_go, if_pos hp] at h
        exact ih c h
      · rw [strip_trailing_go, if_neg hp] at h
        simp at h
        subst h
        exact Bool.eq_false_iff.mpr hp

lemma strip_trailing_go_idem (l : List Char) :
    strip_trailing_go (strip_trailing_go l) = strip_trailing_go l := by
  induction l with
  | nil => rfl
  | cons a rest ih =>
      by_cases hp : asr_punctuation.contains a
      · rw [strip_trailing_go, if_pos hp, ih]
      · rw [strip_trailing_go, if_neg hp, strip_trailing_go, if_neg hp]

lemma strip_trailing_go_noop (l : List Char)
    (h : ∀ c, l.head? = some c → asr_punctuation.contains c = false) :
    strip_trailing_go l = l := by
  cases l with
  | nil => rfl
  | cons a rest =>
      have ha : asr_punctuation.contains a = false := h a rfl
      rw [strip_trailing_go, if_neg (Bool.eq_false_iff.mp ha)]

lemma strip_trailing_go_suffix (l : List Char) :
    ∃ u, u ++ strip_trailing_go l = l := by
  induction l with
  | nil => exact ⟨[], rfl⟩
  | cons a rest ih =>
      by_cases hp : asr_punctuation.contains a
      · obtain ⟨u, hu⟩ := ih
        exact ⟨a :: u, by rw [strip_trailing_go, if_pos hp]; simp [hu]⟩
      · exact ⟨[], by rw [strip_trailing_go, if_neg hp]; rfl⟩

lemma strip_trailing_go_all_punct (l : List Char)
    (h : ∀ c ∈ l, asr_punctuation.contains c = true) :
    strip_trailing_go l = [] := by
  induction l with
  | nil => rfl
  | cons a rest ih =>
      rw [strip_trailing_go, if_pos (h a (by simp))]
      exact ih (fun c hc => h c (by simp [hc]))

lemma runAttempts_all_fail (cfg : RetryConfig)
    (once : Nat → Except ASRError String) (f : Nat → ASRError)
    (hf : ∀ a, once a = .error (f a)) :
    ∀ (l : List Nat) (h : l ≠ []) (last : Option ASRError),
      (runAttempts cfg once l last).result = .error (f (l.getLast h)) ∧
      (runAttempts cfg once l last).calls = l.length ∧
      (runAttempts cfg once l last).delays =
        (l.filter (fun a => decide (a > 0))).map (retryDelayMs cfg) := by
  intro l
  induction l with
  | nil => intro h last; exact absurd rfl h
  | cons a rest ih =>
      intro _ last
      cases rest with
      | nil =>
          refine ⟨?_, ?_, ?_⟩
          · simp [runAttempts, hf a]
          · simp [runAttempts, hf a]
          · by_cases ha : 0 < a <;>
              simp [runAttempts, hf a, List.filter_cons, ha]
      | cons b rest' =>
          have hne : (b :: rest') ≠ [] := by simp
          obtain ⟨h1, h2, h3⟩ := ih hne (some (f a))
          refine ⟨?_, ?_, ?_⟩
          · rw [List.getLast_cons hne]
            simpa [runAttempts, hf a] using h1
          · simpa [runAttempts, hf a] using h2
          · rw [List.filter_cons]
            by_cases ha : 0 < a <;>
              simpa [runAttempts, hf a, ha] using h3

/-- Preemption lemma for the race loop starting at an attempt `a ≥ 1`:
while every checkpoint holds no successful slot and every primary attempt
fails the loop walks on; at the first checkpoint `k` holding a successful
fallback result it cancels the background task and returns the fallback
text, having made `k - a` further primary calls and slept exactly the
delays of attempts `a .. k-1`. -/
lemma raceGo_preempt (cfg : RetryConfig) (inp : RaceInput) (k : Nat)
    (t : String) (hfb : inp.fallbackPresent = true)
    (hk : inp.slotAt k = some (.ok t)) :
    ∀ (r a : Nat) (errs : List String), 1 ≤ a → a ≤ k → k < a + r →
      (∀ j, a ≤ j → j < k → ∃ e, inp.primary j = .error e) →
      (∀ j, a ≤ j → j < k → ∀ s, inp.slotAt j ≠ some (.ok s)) →
      raceGo cfg inp a r errs =
        { result := .ok ⟨t, inp.fallbackName, true⟩,
          primaryCalls := k - a,
          delays := (List.range' a (k - a)).map (retryDelayMs cfg),
          cancelled := true, awaitedFallback := false } := by
  intro r
  induction r with
  | zero => intro a errs _ hak hkr _ _; omega
  | succ r ih =>
      intro a errs ha1 hak hkr hprim hslot
      rcases Nat.lt_or_ge a k with hlt | hge
      · obtain ⟨e, he⟩ := hprim a le_rfl hlt
        have hstep : raceGo cfg inp a (r + 1) errs =
            { result := (raceGo cfg inp (a + 1) r (errs ++ [e])).result,
              primaryCalls := (raceGo cfg inp (a + 1) r (errs ++ [e])).primaryCalls + 1,
              delays := [retryDelayMs cfg a] ++
                (raceGo cfg inp (a + 1) r (errs ++ [e])).delays,
              cancelled := (raceGo cfg inp (a + 1) r (errs ++ [e])).cancelled,
              awaitedFallback := (raceGo cfg inp (a + 1) r (errs ++ [e])).awaitedFallback } := by
          rw [raceGo]
          have hcp : (if a > 0 ∧ inp.fallbackPresent then inp.slotAt a else none) =
              inp.slotAt a := by
            simp [show a > 0 ∧ inp.fallbackPresent from ⟨by omega, hfb⟩]
          rw [hcp]
          rcases hs : inp.slotAt a with _ | v
          · simp [he, show a > 0 from by omega]
          · rcases v with ev | tv
            · simp [he, show a > 0 from by omega]
            · exact absurd hs (hslot a le_rfl hlt tv)
        rw [hstep, ih (a + 1) (errs ++ [e]) (by omega) (by omega) (by omega)
              (fun j hj1 hj2 => hprim j (by omega) hj2)
              (fun j hj1 hj2 => hslot j (by omega) hj2)]
        have hrange : List.range' a (k - a) =
            a :: List.range' (a + 1) (k - (a + 1)) := by
          have hka : k - a = (k - (a + 1)) + 1 := by omega
          rw [hka, List.range'_succ]
        simp [hrange]
        omega
      · have hak' : a = k := by omega
        subst hak'
        rw [raceGo]
        have hcp : (if a > 0 ∧ inp.fallbackPresent then inp.slotAt a else none) =
            some (.ok t) := by
          simp [show a > 0 ∧ inp.fallbackPresent from ⟨by omega, hfb⟩, hk]
        rw [hcp]
        simp

lemma raceFinal_primaryCalls (inp : RaceInput) (errs : List String) :
    (raceFinal inp errs).primaryCalls = 0 := by
  unfold raceFinal
  by_cases hb : inp.fallbackPresent
  · rw [if_pos hb]; rcases inp.finalFallback <;> rfl
  · rw [if_neg hb]

lemma raceFinal_delays (inp : RaceInput) (errs : List String) :
    (raceFinal inp errs).delays = [] := by
  unfold raceFinal
  by_cases hb : inp.fallbackPresent
  · rw [if_pos hb]; rcases inp.finalFallback <;> rfl
  · rw [if_neg hb]

/-- Exhaustion lemma for the race loop starting at `a ≥ 1`: if no
checkpoint in range holds a successful slot and every primary attempt
fails, the loop makes all `r` remaining calls, sleeps every delay of
attempts `a .. a+r-1`, and falls through to the post-loop tail with all
error strings accumulated. -/
lemma raceGo_exhaust (cfg : RetryConfig) (inp : RaceInput) (E : Nat → String)
    (hprim : ∀ j, inp.primary j = .error (E j)) :
    ∀ (r a : Nat) (errs : List String), 1 ≤ a →
      (∀ j, a ≤ j → j < a + r → ∀ s, inp.slotAt j ≠ some (.ok s)) →
      raceGo cfg inp a r errs =
        { raceFinal inp (errs ++ (List.range' a r).map E) with
          primaryCalls := r,
          delays := (List.range' a r).map (retryDelayMs cfg) } := by
  intro r
  induction r with
  | zero =>
      intro a errs _ _
      rw [raceGo]
      have h1 := raceFinal_primaryCalls inp errs
      have h2 := raceFinal_delays inp errs
      rcases hx : raceFinal inp errs with ⟨res, pc, ds, cc, af⟩
      rw [hx] at h1 h2
      simp only [] at h1 h2
      simp only [List.range', List.map_nil, List.append_nil, hx]
      rw [h1, h2]
  | succ r ih =>
      intro a errs ha1 hslot
      rw [raceGo]
      have hcp : (if a > 0 ∧ inp.fallbackPresent then inp.slotAt a else none) =
          (if inp.fallbackPresent then inp.slotAt a else none) := by
        by_cases hb : inp.fallbackPresent <;> simp [hb, show a > 0 from by omega]
      rw [hcp]
      have hgoal : ∀ v, v = inp.slotAt a → (∀ s, v ≠ some (.ok s)) →
          (match (if inp.fallbackPresent then inp.slotAt a else none) with
            | some (.ok text) =>
                { result := .ok ⟨text, inp.fallbackName, true⟩,
                  primaryCalls := 0, delays := [], cancelled := true,
                  awaitedFallback := false }
            | _ =>
              let ds := if a > 0 then [retryDelayMs cfg a] else []
              match inp.primary a with
              | .ok text =>
                  { result := .ok ⟨text, inp.primaryName, false⟩,
                    primaryCalls := 1, delays := ds,
                    cancelled := inp.fallbackPresent, awaitedFallback := false }
              | .error e =>
                  let t := raceGo cfg inp (a + 1) r (errs ++ [e])
                  { result := t.result, primaryCalls := t.primaryCalls + 1,
                    delays := ds ++ t.delays, cancelled := t.cancelled,
                    awaitedFallback := t.awaitedFallback } : RaceTrace) =
          { raceFinal inp (errs ++ (List.range' a (r + 1)).map E) with
            primaryCalls := r + 1,
            delays := (List.range' a (r + 1)).map (retryDelayMs cfg) } := by
        intro v hv hnotok
        have hrec := ih (a + 1) (errs ++ [E a]) (by omega)
          (fun j hj1 hj2 s => hslot j (by omega) (by omega) s)
        have hbody : ∀ u, u = (if inp.fallbackPresent then inp.slotAt a else none) →
            (∀ s, u ≠ some (.ok s)) → True := fun _ _ _ => trivial
        rcases hb : (if inp.fallbackPresent then inp.slotAt a else none) with _ | w
        · simp only [hprim a, show a > 0 from by omega, if_pos]
          rw [hrec]
          simp [List.range'_succ, List.append_assoc]
        · rcases w with ew | tw
          · simp only [hprim a, show a > 0 from by omega, if_pos]
            rw [hrec]
            simp [List.range'_succ, List.append_assoc]
          · exfalso
            by_cases hf : inp.fallbackPresent
            · rw [if_pos hf] at hb
              exact (hnotok tw) (hv ▸ hb)
            · rw [if_neg hf] at hb
              exact Option.noConfusion hb
      exact hgoal (inp.slotAt a) rfl
        (fun s => hslot a le_rfl (by omega) s)

/-- Behaviour of the race loop depends on the observed slot contents only
through `slotOk`: a fallback error sitting in the slot is indistinguishable
from an empty slot. -/
lemma raceGo_slot_invariant (cfg : RetryConfig) (inp inp' : RaceInput)
    (hfb : inp'.fallbackPresent = inp.fallbackPresent)
    (hpn : inp'.primaryName = inp.primaryName)
    (hfn : inp'.fallbackName = inp.fallbackName)
    (hp : inp'.primary = inp.primary)
    (hff : inp'.finalFallback = inp.finalFallback)
    (hs : ∀ j, slotOk (inp'.slotAt j) = slotOk (inp.slotAt j)) :
    ∀ (r a : Nat) (errs : List String),
      raceGo cfg inp' a r errs = raceGo cfg inp a r errs := by
  intro r
  induction r with
  | zero =>
      intro a errs
      simp [raceGo, raceFinal, hfb, hfn, hff]
  | succ r ih =>
      intro a errs
      rw [raceGo, raceGo]
      by_cases hc : a > 0 ∧ inp.fallbackPresent
      · rw [if_pos (by rw [hfb]; exact hc), if_pos hc]
        have hsa := hs a
        rcases h1 : inp'.slotAt a with _ | v1 <;>
          rcases h2 : inp.slotAt a with _ | v2
        · simp only [hp, hpn, hfb, ih]
        · rcases v2 with e2 | t2
          · simp only [hp, hpn, hfb, ih]
          · rw [h1, h2] at hsa; simp [slotOk] at hsa
        · rcases v1 with e1 | t1
          · simp only [hp, hpn, hfb, ih]
          · rw [h1, h2] at hsa; simp [slotOk] at hsa
        · rcases v1 with e1 | t1 <;> rcases v2 with e2 | t2
          · simp only [hp, hpn, hfb, ih]
          · rw [h1, h2] at hsa; simp [slotOk] at hsa
          · rw [h1, h2] at hsa; simp [slotOk] at hsa
          · rw [h1, h2] at hsa; simp [slotOk] at hsa
            subst hsa; rw [hfn]
      · rw [if_neg (by rw [hfb]; exact hc), if_neg hc]
        simp only [hp, hpn, hfb, ih]

lemma filter_pos_range (n : Nat) :
    (List.range (n + 1)).filter (fun a => decide (a > 0)) = List.range' 1 n := by
  induction n with
  | zero => rfl
  | succ n ih =>
      rw [List.range_succ, List.filter_append, ih]
      have h1 : List.range' 1 (n + 1) = List.range' 1 n ++ [1 + n] := by
        simpa using @List.range'_concat 1 1 n
      rw [h1]
      simp [Nat.add_comm]

lemma getLast_range_succ (n : Nat) :
    (List.range (n + 1)).getLast (by simp) = n := by
  have h := List.getLast_concat (l := List.range n) (a := n)
  rw [List.getLast_congr _ _ (List.range_succ n)]
  exact h

/-- Behaviour of the HTTP engine loop when every attempt fails: the last
error is returned after `max_retries + 1` provider calls, with the full
backoff schedule (no delay before attempt 0, `retryDelayMs cfg k` before
attempt `k ≥ 1`). -/
lemma engineTranscribe_all_fail (cfg : RetryConfig)
    (once : Nat → Except ASRError String) (f : Nat → ASRError)
    (audio : AudioData) (hf : ∀ a, once a = .error (f a))
    (ha : audio.samples ≠ []) :
    engineTranscribe cfg once audio =
      { result := .error (f cfg.max_retries),
        calls := cfg.max_retries + 1,
        delays := (List.range' 1 cfg.max_retries).map (retryDelayMs cfg) } := by
  have hne : List.range (cfg.max_retries + 1) ≠ [] := by simp
  obtain ⟨h1, h2, h3⟩ := runAttempts_all_fail cfg once f hf
    (List.range (cfg.max_retries + 1)) hne none
  have hempty : audio.samples.isEmpty = false := by
    cases hsam : audio.samples with
    | nil => exact absurd hsam ha
    | cons x xs => rfl
  rw [engineTranscribe, hempty]
  simp only [Bool.false_eq_true, if_false]
  rcases hx : runAttempts cfg once (List.range (cfg.max_retries + 1)) none
    with ⟨res, calls, delays⟩
  rw [hx] at h1 h2 h3
  simp only at h1 h2 h3
  rw [h1, h2, h3, getLast_range_succ, filter_pos_range]
  simp

lemma seqFinal_primaryCalls (inp : SeqInput) (errs : List String) :
    (seqFinal inp errs).primaryCalls = 0 := by
  unfold seqFinal
  by_cases hb : inp.enable_fallback ∧ inp.fallbackPresent
  · rw [if_pos hb]; rcases inp.fallbackResult <;> rfl
  · rw [if_neg hb]

lemma seqFinal_delays (inp : SeqInput) (errs : List String) :
    (seqFinal inp errs).delays = [] := by
  unfold seqFinal
  by_cases hb : inp.enable_fallback ∧ inp.fallbackPresent
  · rw [if_pos hb]; rcases inp.fallbackResult <;> rfl
  · rw [if_neg hb]

/-- Exhaustion lemma for the sequential loop starting at `a ≥ 1`. -/
lemma seqGo_exhaust (cfg : RetryConfig) (inp : SeqInput) (E : Nat → String)
    (hprim : ∀ j, inp.primary j = .error (E j)) :
    ∀ (r a : Nat) (errs : List String), 1 ≤ a →
      seqGo cfg inp a r errs =
        { seqFinal inp (errs ++ (List.range' a r).map E) with
          primaryCalls := r,
          delays := (List.range' a r).map (retryDelayMs cfg) } := by
  intro r
  induction r with
  | zero =>
      intro a errs _
      rw [seqGo]
      have h1 := seqFinal_primaryCalls inp errs
      have h2 := seqFinal_delays inp errs
      rcases hx : seqFinal inp errs with ⟨res, pc, fc, ds⟩
      rw [hx] at h1 h2
      simp only [] at h1 h2
      simp only [List.range', List.map_nil, List.append_nil, hx]
      rw [h1, h2]
  | succ r ih =>
      intro a errs ha1
      rw [seqGo]
      simp only [hprim a, show a > 0 from by omega, if_pos]
      rw [ih (a + 1) (errs ++ [E a]) (by omega)]
      simp [List.range'_succ, List.append_assoc]

/-- Top-level sequential run with an always-failing primary: full retry
schedule, then the post-loop tail over all accumulated errors. -/
lemma seqTranscribe_all_fail (cfg : RetryConfig) (inp : SeqInput)
    (E : Nat → String) (hprim : ∀ j, inp.primary j = .error (E j)) :
    seqTranscribe cfg inp =
      { seqFinal inp ((List.range (cfg.max_retries + 1)).map E) with
        primaryCalls := cfg.max_retries + 1,
        delays := (List.range' 1 cfg.max_retries).map (retryDelayMs cfg) } := by
  have hstep : seqTranscribe cfg inp =
      { result := (seqGo cfg inp 1 cfg.max_retries [E 0]).result,
        primaryCalls := (seqGo cfg inp 1 cfg.max_retries [E 0]).primaryCalls + 1,
        fallbackCalls := (seqGo cfg inp 1 cfg.max_retries [E 0]).fallbackCalls,
        delays := (seqGo cfg inp 1 cfg.max_retries [E 0]).delays } := by
    rw [seqTranscribe, seqGo]
    simp [hprim 0]
  rw [hstep, seqGo_exhaust cfg inp E hprim cfg.max_retries 1 [E 0] le_rfl]
  have hr : List.range (cfg.max_retries + 1) = 0 :: List.range' 1 cfg.max_retries := by
    rw [List.range_eq_range']
    simpa using List.range'_succ 0 cfg.max_retries 1
  rw [hr]
  simp

/-- Top-level race run with an always-failing primary and no successful
slot observation: full retry schedule, then the post-loop tail. -/
lemma raceTranscribe_all_fail (cfg : RetryConfig) (inp : RaceInput)
    (E : Nat → String) (hprim : ∀ j, inp.primary j = .error (E j))
    (hslot : ∀ j s, inp.slotAt j ≠ some (.ok s)) :
    raceTranscribe cfg inp =
      { raceFinal inp ((List.range (cfg.max_retries + 1)).map E) with
        primaryCalls := cfg.max_retries + 1,
        delays := (List.range' 1 cfg.max_retries).map (retryDelayMs cfg) } := by
  have hstep : raceTranscribe cfg inp =
      { result := (raceGo cfg inp 1 cfg.max_retries [E 0]).result,
        primaryCalls := (raceGo cfg inp 1 cfg.max_retries [E 0]).primaryCalls + 1,
        delays := (raceGo cfg inp 1 cfg.max_retries [E 0]).delays,
        cancelled := (raceGo cfg inp 1 cfg.max_retries [E 0]).cancelled,
        awaitedFallback := (raceGo cfg inp 1 cfg.max_retries [E 0]).awaitedFallback } := by
    rw [raceTranscribe, raceGo]
    simp [hprim 0]
  rw [hstep, raceGo_exhaust cfg inp E hprim cfg.max_retries 1 [E 0] le_rfl
    (fun j _ _ s => hslot j s)]
  have hr : List.range (cfg.max_retries + 1) = 0 :: List.range' 1 cfg.max_retries := by
    rw [List.range_eq_range']
    simpa using List.range'_succ 0 cfg.max_retries 1
  rw [hr]
  simp

lemma u32be_read (n : Nat) (hn : n < 2 ^ 32) (pre : List Nat) (post : List Nat)
    (hpre : pre.length = 4) (hu : pre = u32be n) :
    read_u32be (pre ++ post) 0 = n := by
  subst hu
  simp only [read_u32be, u32be]
  simp [List.getD, List.getD_cons_succ]
  omega

/-- Evaluation of the frame parser on a well-formed wire frame whose
header is `0x11 0x11 0x11 0x00` (header size 1 word, message type 1 with
the sequence flag, JSON serialization with gzip compression), followed by
any 4 sequence bytes, the big-endian length of the stored payload `C`, and
`C` itself: the parser skips the sequence, reads the length back and routes
`C` through the gzip decompressor. -/
lemma parse_frame_of_wire (gz : GzipCodec) (C : List Nat)
    (s0 s1 s2 s3 : Nat) (hC : C.length < 2 ^ 32) :
    parse_response_frame gz
      (0x11 :: 0x11 :: 0x11 :: 0x00 :: s0 :: s1 :: s2 :: s3 ::
       (C.length / 2 ^ 24 % 256) :: (C.length / 2 ^ 16 % 256) ::
       (C.length / 2 ^ 8 % 256) :: (C.length % 256) :: C) =
      match gz.decompress C with
      | .ok r => .ok (r, 1)
      | .error e => .error ("Gzip 解压失败: " ++ e) := by
  have hsize : read_u32be
      (0x11 :: 0x11 :: 0x11 :: 0x00 :: s0 :: s1 :: s2 :: s3 ::
       (C.length / 2 ^ 24 % 256) :: (C.length / 2 ^ 16 % 256) ::
       (C.length / 2 ^ 8 % 256) :: (C.length % 256) :: C) 8 = C.length := by
    unfold read_u32be
    simp
    omega
  unfold parse_response_frame
  simp
  norm_num at hsize
  rw [hsize, if_neg (by omega), if_neg (by omega), if_neg (by omega),
    if_neg (by omega), List.take_length]

/-! ## Claim theorems -/

/-- Claim C8: trailing-punctuation stripping is idempotent, and is the identity
on a string whose last character is not in the punctuation set; the Qwen
realtime variant (removing punctuation mid-string as well) is likewise
idempotent and the identity on punctuation-free strings. -/
theorem claim_C8_strip_idempotent (s : List Char) :
    strip_trailing_punctuation (strip_trailing_punctuation s) =
      strip_trailing_punctuation s
    ∧ ((s.getLast?.all fun c => !(asr_punctuation.contains c)) = true →
        strip_trailing_punctuation s = s)
    ∧ strip_punctuation (strip_punctuation s) = strip_punctuation s
    ∧ ((∀ c ∈ s, qwen_rt_punctuation.contains c = false) →
        strip_punctuation s = s) := by
  refine ⟨?_, ?_, ?_, ?_⟩
  · unfold strip_trailing_punctuation
    rw [List.reverse_reverse, strip_trailing_go_idem]
  · intro h
    unfold strip_trailing_punctuation
    rw [strip_trailing_go_noop, List.reverse_reverse]
    intro c hc
    rw [List.head?_reverse] at hc
    rw [hc] at h
    simpa using h
  · unfold strip_punctuation
    rw [List.filter_filter]
    simp
  · intro h
    apply List.filter_eq_self.mpr
    intro c hc
    simp only [h c hc, Bool.not_false]

/-- Claim C8 witness: the properties evaluated on concrete strings. -/
theorem claim_C8_strip_idempotent_witness :
    strip_trailing_punctuation (strip_trailing_punctuation ['你', '好', '。']) =
      strip_trailing_punctuation ['你', '好', '。']
    ∧ strip_trailing_punctuation ['你', '好'] = ['你', '好']
    ∧ strip_punctuation ['你', '好'] = ['你', '好'] :=
  ⟨(claim_C8_strip_idempotent ['你', '好', '。']).1,
   (claim_C8_strip_idempotent ['你', '好']).2.1 (by decide),
   (claim_C8_strip_idempotent ['你', '好']).2.2.2 (by decide)⟩

/-- Claim C10: the output of trailing-punctuation stripping is a character
prefix of the input (some trailing remainder extends it back to the
input), and a string consisting only of punctuation characters strips to
the empty string. -/
theorem claim_C10_strip_prefix_of_input (s : List Char) :
    (∃ t, strip_trailing_punctuation s ++ t = s)
    ∧ ((∀ c ∈ s, asr_punctuation.contains c = true) →
        strip_trailing_punctuation s = []) := by
  constructor
  · obtain ⟨u, hu⟩ := strip_trailing_go_suffix s.reverse
    refine ⟨u.reverse, ?_⟩
    have h := congrArg List.reverse hu
    rw [List.reverse_append, List.reverse_reverse] at h
    exact h
  · intro h
    unfold strip_trailing_punctuation
    rw [strip_trailing_go_all_punct]
    · rfl
    · intro c hc
      exact h c (List.mem_reverse.mp hc)

/-- Claim C10 witness: evaluated on a punctuation-only concrete string. -/
theorem claim_C10_strip_prefix_of_input_witness :
    strip_trailing_punctuation ['。', '，'] = []
    ∧ (∃ t, strip_trailing_punctuation ['。', '，'] ++ t = ['。', '，']) :=
  ⟨(claim_C10_strip_prefix_of_input ['。', '，']).2 (by decide),
   (claim_C10_strip_prefix_of_input ['。', '，']).1⟩

/-- Claim C7: `transcribe` on an empty audio buffer returns the invalid-audio
error with zero provider calls (hence no WAV encoding and no network
traffic) and zero backoff sleeps, for every retry configuration and every
provider behaviour. -/
theorem claim_C7_empty_audio (cfg : RetryConfig)
    (once : Nat → Except ASRError String) :
    engineTranscribe cfg once ⟨[]⟩ =
      { result := .error (.InvalidAudio "音频数据为空"),
        calls := 0, delays := [] } := rfl

/-- Claim C1 counterexample: with the default retry configuration and a provider
that fails every attempt with a classified network error, a single
`transcribe` call on a non-empty buffer makes three provider call attempts
and sleeps two backoff delays — not at most one attempt with no backoff
sleep as claimed. -/
theorem claim_C1_counterexample :
    (engineTranscribe RetryConfig.default
      (fun _ => .error (.NetworkError "连接失败")) ⟨[0]⟩).calls = 3
    ∧ (engineTranscribe RetryConfig.default
        (fun _ => .error (.NetworkError "连接失败")) ⟨[0]⟩).delays = [500, 1000]
    ∧ ¬((engineTranscribe RetryConfig.default
        (fun _ => .error (.NetworkError "连接失败")) ⟨[0]⟩).calls ≤ 1) := by
  refine ⟨rfl, rfl, ?_⟩
  intro h
  exact absurd h (by decide)

/-- Claim C1 amended: each HTTP engine's `transcribe` retries internally — when
every attempt fails with a classified error it makes `max_retries + 1`
provider call attempts, sleeping the exponential backoff delay before each
retry, and returns the last attempt's error; only the inner
`transcribe_once` is a single provider call attempt. -/
theorem claim_C1_amended_engine_retries (cfg : RetryConfig)
    (once : Nat → Except ASRError String) (f : Nat → ASRError)
    (audio : AudioData) (hf : ∀ a, once a = .error (f a))
    (ha : audio.samples ≠ []) :
    engineTranscribe cfg once audio =
      { result := .error (f cfg.max_retries),
        calls := cfg.max_retries + 1,
        delays := (List.range' 1 cfg.max_retries).map (retryDelayMs cfg) } :=
  engineTranscribe_all_fail cfg once f audio hf ha

/-- Claim C1 amended witness: the default configuration yields three attempts
with delays 500 ms and 1000 ms. -/
theorem claim_C1_amended_engine_retries_witness :
    engineTranscribe RetryConfig.default
      (fun _ => .error (.NetworkError "连接失败")) ⟨[0]⟩ =
      { result := .error (.NetworkError "连接失败"),
        calls := 3, delays := [500, 1000] } := by
  have h := claim_C1_amended_engine_retries RetryConfig.default
    (fun _ => .error (.NetworkError "连接失败"))
    (fun _ => .NetworkError "连接失败") ⟨[0]⟩ (fun _ => rfl) (by simp)
  simpa using h

/-- Claim C6: the default retry configuration is 2 retries, 500 ms base delay,
6000 ms per-attempt timeout; the delay before retry attempt `k ≥ 1` equals
`base_delay × 2^(k−1)` exactly (within the `u64` range the code computes
in), and every retrying loop — the HTTP engines, the sequential fallback
orchestrator and the race orchestrator — sleeps no delay before attempt 0
and exactly the schedule `retryDelayMs cfg 1, …, retryDelayMs cfg
max_retries` when all attempts run. -/
theorem claim_C6_retry_schedule :
    RetryConfig.default =
      { max_retries := 2, base_delay_ms := 500, timeout_ms := 6000 }
    ∧ (∀ (cfg : RetryConfig) (k : Nat), 1 ≤ k → k ≤ 64 →
        cfg.base_delay_ms * 2 ^ (k - 1) < 2 ^ 64 →
        retryDelayMs cfg k = cfg.base_delay_ms * 2 ^ (k - 1))
    ∧ (∀ (cfg : RetryConfig) (once : Nat → Except ASRError String)
        (f : Nat → ASRError) (audio : AudioData),
        (∀ a, once a = .error (f a)) → audio.samples ≠ [] →
        (engineTranscribe cfg once audio).delays =
          (List.range' 1 cfg.max_retries).map (retryDelayMs cfg))
    ∧ (∀ (cfg : RetryConfig) (inp : SeqInput) (E : Nat → String),
        (∀ j, inp.primary j = .error (E j)) →
        (seqTranscribe cfg inp).delays =
          (List.range' 1 cfg.max_retries).map (retryDelayMs cfg))
    ∧ (∀ (cfg : RetryConfig) (inp : RaceInput) (E : Nat → String),
        (∀ j, inp.primary j = .error (E j)) →
        (∀ j s, inp.slotAt j ≠ some (.ok s)) →
        (raceTranscribe cfg inp).delays =
          (List.range' 1 cfg.max_retries).map (retryDelayMs cfg)) := by
  refine ⟨rfl, ?_, ?_, ?_, ?_⟩
  · intro cfg k hk1 hk2 hlt
    unfold retryDelayMs
    rw [Nat.mod_eq_of_lt (by omega : k - 1 < 64), Nat.mod_eq_of_lt hlt]
  · intro cfg once f audio hf ha
    rw [engineTranscribe_all_fail cfg once f audio hf ha]
  · intro cfg inp E hE
    rw [seqTranscribe_all_fail cfg inp E hE]
  · intro cfg inp E hE hslot
    rw [raceTranscribe_all_fail cfg inp E hE hslot]

/-- Claim C6 witness: concrete delays under the default configuration. -/
theorem claim_C6_retry_schedule_witness :
    retryDelayMs RetryConfig.default 2 = 500 * 2 ^ 1
    ∧ (engineTranscribe RetryConfig.default
        (fun _ => .error (.NetworkError "连接失败")) ⟨[0]⟩).delays =
        (List.range' 1 2).map (retryDelayMs RetryConfig.default) :=
  ⟨claim_C6_retry_schedule.2.1 RetryConfig.default 2 (by decide) (by decide)
      (by decide),
   claim_C6_retry_schedule.2.2.1 RetryConfig.default
      (fun _ => .error (.NetworkError "连接失败"))
      (fun _ => .NetworkError "连接失败") ⟨[0]⟩ (fun _ => rfl) (by simp)⟩

/-- Claim C2: in the race orchestrator with the fallback task spawned, the
checkpoint before the delay of retry attempt `k` (never before attempt 0)
returns the fallback's text with `used_fallback = true` as soon as the
shared slot holds a successful result, cancelling the background task and
skipping the remaining delay and all further primary attempts: exactly `k`
primary attempts have run and only the delays of attempts `1 .. k-1` were
slept. -/
theorem claim_C2_race_preemption (cfg : RetryConfig) (inp : RaceInput)
    (k : Nat) (t : String) (hfb : inp.fallbackPresent = true)
    (hk1 : 1 ≤ k) (hk2 : k ≤ cfg.max_retries)
    (hprim : ∀ j, j < k → ∃ e, inp.primary j = .error e)
    (hslot : ∀ j, 1 ≤ j → j < k → ∀ s, inp.slotAt j ≠ some (.ok s))
    (hok : inp.slotAt k = some (.ok t)) :
    raceTranscribe cfg inp =
      { result := .ok ⟨t, inp.fallbackName, true⟩,
        primaryCalls := k,
        delays := (List.range' 1 (k - 1)).map (retryDelayMs cfg),
        cancelled := true, awaitedFallback := false } := by
  obtain ⟨e0, he0⟩ := hprim 0 (by omega)
  have hstep : raceTranscribe cfg inp =
      { result := (raceGo cfg inp 1 cfg.max_retries [e0]).result,
        primaryCalls := (raceGo cfg inp 1 cfg.max_retries [e0]).primaryCalls + 1,
        delays := (raceGo cfg inp 1 cfg.max_retries [e0]).delays,
        cancelled := (raceGo cfg inp 1 cfg.max_retries [e0]).cancelled,
        awaitedFallback := (raceGo cfg inp 1 cfg.max_retries [e0]).awaitedFallback } := by
    rw [raceTranscribe, raceGo]
    simp [he0]
  rw [hstep, raceGo_preempt cfg inp k t hfb hok cfg.max_retries 1 [e0]
    le_rfl hk1 (by omega) (fun j _ hj2 => hprim j hj2)
    (fun j hj1 hj2 => hslot j hj1 hj2)]
  have hkk : k - 1 + 1 = k := by omega
  simp [hkk]

/-- Claim C2 witness: a primary that never succeeds and a fallback resolving
before the first retry delay yield the fallback's text with
`used_fallback = true` after exactly one primary attempt and no slept
delay. -/
theorem claim_C2_race_preemption_witness :
    raceTranscribe RetryConfig.default
      ⟨true, "qwen", "doubao", fun _ => .error "主引擎失败",
       fun _ => some (.ok "备用结果"), .joinErr "未等待"⟩ =
      { result := .ok ⟨"备用结果", "doubao", true⟩,
        primaryCalls := 1, delays := [],
        cancelled := true, awaitedFallback := false } := by
  have h := claim_C2_race_preemption RetryConfig.default
    ⟨true, "qwen", "doubao", fun _ => .error "主引擎失败",
     fun _ => some (.ok "备用结果"), .joinErr "未等待"⟩ 1 "备用结果"
    rfl le_rfl (by decide) (fun j hj => ⟨"主引擎失败", rfl⟩)
    (fun j hj1 hj2 s => by omega) rfl
  simpa using h

/-- Claim C9: a fallback error observed at a race checkpoint is ignored — masking
every slot error to an empty slot leaves the whole run unchanged, so the
delay is still slept and the next primary attempt still runs; and when the
primary exhausts every attempt, the fallback's error surfaces only inside
the final aggregate all-engines-failed error, after the full retry
schedule. -/
theorem claim_C9_race_fallback_error_ignored :
    (∀ (cfg : RetryConfig) (inp : RaceInput),
      raceTranscribe cfg { inp with slotAt := maskSlotErr inp.slotAt } =
        raceTranscribe cfg inp)
    ∧ (∀ (cfg : RetryConfig) (inp : RaceInput) (E : Nat → String) (e : String),
        (∀ j, inp.primary j = .error (E j)) →
        (∀ j s, inp.slotAt j ≠ some (.ok s)) →
        inp.fallbackPresent = true → inp.finalFallback = .err e →
        raceTranscribe cfg inp =
          { result := .error (.AllEnginesFailed
              (String.intercalate "; "
                ((List.range (cfg.max_retries + 1)).map E)) (some e)),
            primaryCalls := cfg.max_retries + 1,
            delays := (List.range' 1 cfg.max_retries).map (retryDelayMs cfg),
            cancelled := false, awaitedFallback := true }) := by
  constructor
  · intro cfg inp
    apply raceGo_slot_invariant cfg inp
      { inp with slotAt := maskSlotErr inp.slotAt } rfl rfl rfl rfl rfl
    intro j
    show slotOk (maskSlotErr inp.slotAt j) = slotOk (inp.slotAt j)
    rcases h : inp.slotAt j with _ | v
    · simp [maskSlotErr, slotOk, h]
    · rcases v with e | t <;> simp [maskSlotErr, slotOk, h]
  · intro cfg inp E e hprim hslot hfb hff
    rw [raceTranscribe_all_fail cfg inp E hprim hslot]
    unfold raceFinal
    rw [if_pos hfb, hff]

/-- Claim C9 witness: concrete run in which every checkpoint holds a fallback
error; the re-run with the error masked is identical, and the fallback
error appears only in the final aggregate error after all three primary
attempts and both delays. -/
theorem claim_C9_race_fallback_error_ignored_witness :
    raceTranscribe RetryConfig.default
      ⟨true, "qwen", "doubao", fun _ => .error "网络错误",
       fun _ => some (.error "备用失败"), .err "备用失败"⟩ =
      { result := .error (.AllEnginesFailed "网络错误; 网络错误; 网络错误"
          (some "备用失败")),
        primaryCalls := 3, delays := [500, 1000],
        cancelled := false, awaitedFallback := true } := by
  have h := claim_C9_race_fallback_error_ignored.2 RetryConfig.default
    ⟨true, "qwen", "doubao", fun _ => .error "网络错误",
     fun _ => some (.error "备用失败"), .err "备用失败"⟩
    (fun _ => "网络错误") "备用失败" (fun _ => rfl)
    (fun j s h => by simp at h) rfl rfl
  simpa using h

/-- Claim C4: the consecutive-send-failure counter resets to zero on every
successful `send_chunk`; from a reset counter, exactly 5 consecutive send
failures abort the task with a wire-protocol error whose `chunks_sent` and
`samples_sent` counters cover every chunk processed up to and including the
5th failing one, while 4 failures followed by a success do not abort and
leave the counter reset. -/
theorem claim_C4_circuit_breaker :
    (∀ (name : String) (st : TaskState) (s : List Int),
      taskStep name st (.chunk s none) =
        .next ⟨st.chunks + 1, st.samples + s.length, 0⟩)
    ∧ (∀ (name : String) (close : Except ASRError String)
        (rest : List TaskEvent) (st : TaskState)
        (s1 s2 s3 s4 s5 : List Int) (e1 e2 e3 e4 e5 : String),
        st.consecutive = 0 →
        taskRun name close
          (.chunk s1 (some e1) :: .chunk s2 (some e2) :: .chunk s3 (some e3) ::
           .chunk s4 (some e4) :: .chunk s5 (some e5) :: rest) st =
          .failed (.WebSocketError ("连续 " ++ toString 5 ++ " 次发送失败: " ++ e5))
            name (st.chunks + 5)
            (st.samples + s1.length + s2.length + s3.length + s4.length +
              s5.length))
    ∧ (∀ (name : String) (close : Except ASRError String)
        (rest : List TaskEvent) (st : TaskState)
        (s1 s2 s3 s4 s5 : List Int) (e1 e2 e3 e4 : String),
        st.consecutive = 0 →
        taskRun name close
          (.chunk s1 (some e1) :: .chunk s2 (some e2) :: .chunk s3 (some e3) ::
           .chunk s4 (some e4) :: .chunk s5 none :: rest) st =
          taskRun name close rest
            ⟨st.chunks + 5,
             st.samples + s1.length + s2.length + s3.length + s4.length +
               s5.length, 0⟩) := by
  refine ⟨fun name st s => rfl, ?_, ?_⟩
  · intro name close rest st s1 s2 s3 s4 s5 e1 e2 e3 e4 e5 h
    rcases st with ⟨c, smp, k⟩
    simp only at h
    subst h
    rfl
  · intro name close rest st s1 s2 s3 s4 s5 e1 e2 e3 e4 h
    rcases st with ⟨c, smp, k⟩
    simp only at h
    subst h
    rfl

/-- Claim C4 witness: a concrete run aborting at the 5th consecutive failure
with counters 5 chunks / 9 samples. -/
theorem claim_C4_circuit_breaker_witness :
    taskRun "doubao" (.ok "文本")
      [.chunk [1] (some "发送失败"), .chunk [2, 2] (some "发送失败"),
       .chunk [3] (some "发送失败"), .chunk [4, 4] (some "发送失败"),
       .chunk [5, 5, 5, 5] (some "发送失败")] ⟨0, 0, 0⟩ =
      .failed (.WebSocketError ("连续 " ++ toString 5 ++ " 次发送失败: 发送失败"))
        "doubao" 5 10 := by
  have h := claim_C4_circuit_breaker.2.1 "doubao" (.ok "文本") []
    ⟨0, 0, 0⟩ [1] [2, 2] [3] [4, 4] [5, 5, 5, 5]
    "发送失败" "发送失败" "发送失败" "发送失败" "发送失败" rfl
  simpa using h

/-- Claim C3 counterexample: the Doubao receiver, after accumulating the
non-empty text `你好` from a parsed interim frame, resolves a subsequent
receive error with a wire error rather than a success carrying the
accumulated text. -/
theorem claim_C3_counterexample :
    doubaoReceiver [.binary (.ok ("你好", false)), .recvError "连接重置"] "" =
      .error (.WebSocketError "WebSocket 错误: 连接重置")
    ∧ doubaoReceiver [.binary (.ok ("你好", false)), .recvError "连接重置"] "" ≠
        .ok "你好" := by
  exact ⟨rfl, by decide⟩

/-- Claim C3 amended: for the Doubao receiver a close frame or end of stream
with non-empty accumulated text resolves successfully with that text and
with empty text resolves with a wire error, while a receive error always
resolves with a wire error regardless of accumulated text; the Qwen
receiver resolves a close frame seen before any completion event with an
internal error and a receive error with a wire error, both regardless of
accumulated delta text. -/
theorem claim_C3_amended_drop_semantics :
    (∀ (rest : List DoubaoWsMsg) (acc : String), acc ≠ "" →
      doubaoReceiver (.close :: rest) acc = .ok acc)
    ∧ (∀ rest : List DoubaoWsMsg,
        doubaoReceiver (.close :: rest) "" =
          .error (.WebSocketError "WebSocket 连接被关闭"))
    ∧ (∀ acc : String, acc ≠ "" → doubaoReceiver [] acc = .ok acc)
    ∧ doubaoReceiver [] "" =
        .error (.WebSocketError "WebSocket 连接结束，无转录结果")
    ∧ (∀ (rest : List DoubaoWsMsg) (acc e : String),
        doubaoReceiver (.recvError e :: rest) acc =
          .error (.WebSocketError ("WebSocket 错误: " ++ e)))
    ∧ (∀ (rest : List QwenWsMsg) (t : String),
        qwenReceiver (.close :: rest) t false =
          some (.error (.InternalError "未收到转录结果")))
    ∧ (∀ (rest : List QwenWsMsg) (t : String) (h : Bool) (e : String),
        qwenReceiver (.recvError e :: rest) t h =
          some (.error (.WebSocketError ("WebSocket 错误: " ++ e)))) := by
  refine ⟨?_, ?_, ?_, rfl, ?_, ?_, ?_⟩
  · intro rest acc h
    simp [doubaoReceiver, h]
  · intro rest
    simp [doubaoReceiver]
  · intro acc h
    simp [doubaoReceiver, h]
  · intro rest acc e
    simp [doubaoReceiver]
  · intro rest t
    simp [qwenReceiver]
  · intro rest t h e
    simp [qwenReceiver]

/-- Claim C3 amended witness: concrete evaluations of the amended clauses. -/
theorem claim_C3_amended_drop_semantics_witness :
    doubaoReceiver [.close] "你好" = .ok "你好"
    ∧ doubaoReceiver [] "你好" = .ok "你好"
    ∧ qwenReceiver [.close] "你好" false =
        some (.error (.InternalError "未收到转录结果")) :=
  ⟨claim_C3_amended_drop_semantics.1 [] "你好" (by decide),
   claim_C3_amended_drop_semantics.2.2.1 "你好" (by decide),
   claim_C3_amended_drop_semantics.2.2.2.2.2.1 [] "你好"⟩

/-- Claim C5: framing a payload with `build_message` under message type `0x1`,
flags `0x1` (sequence present) and compression nibble `0x1` stores the
gzip-compressed payload on the wire, and `parse_response` on those
identical bytes recovers the original payload by routing it through gzip
decompression, reporting the sequence-present flags; the gzip codec is
external and assumed to round-trip on this payload, whose compressed form
must fit a `u32` length field. -/
theorem claim_C5_frame_roundtrip (gz : GzipCodec) (p : List Nat) (s : Int)
    (hrt : gz.decompress (gz.compress p) = .ok p)
    (hlen : (gz.compress p).length < 2 ^ 32) :
    build_message gz 0x1 0x1 s p 0x1 =
      [0x11, 0x11, 0x11, 0x00] ++ i32be s ++
        u32be (gz.compress p).length ++ gz.compress p
    ∧ parse_response_frame gz (build_message gz 0x1 0x1 s p 0x1) =
        .ok (p, 0x1) := by
  have hcons : build_message gz 0x1 0x1 s p 0x1 =
      0x11 :: 0x11 :: 0x11 :: 0x00 ::
      ((s % 2 ^ 32).toNat / 2 ^ 24 % 256) :: ((s % 2 ^ 32).toNat / 2 ^ 16 % 256) ::
      ((s % 2 ^ 32).toNat / 2 ^ 8 % 256) :: ((s % 2 ^ 32).toNat % 256) ::
      ((gz.compress p).length / 2 ^ 24 % 256) ::
      ((gz.compress p).length / 2 ^ 16 % 256) ::
      ((gz.compress p).length / 2 ^ 8 % 256) ::
      ((gz.compress p).length % 256) :: gz.compress p := by
    unfold build_message i32be u32be
    have hlen' : (gz.compress p).length % 4294967296 = (gz.compress p).length := by
      omega
    norm_num [hlen']
    decide
  constructor
  · rw [hcons]
    unfold i32be u32be
    simp
  · rw [hcons, parse_frame_of_wire gz (gz.compress p) _ _ _ _ hlen, hrt]

/-- Claim C5 witness: round-trip at a concrete JSON payload under a concrete
codec satisfying the round-trip hypothesis. -/
theorem claim_C5_frame_roundtrip_witness :
    parse_response_frame ⟨fun l => l, fun l => .ok l⟩
      (build_message ⟨fun l => l, fun l => .ok l⟩ 0x1 0x1 1 [123, 34, 125] 0x1) =
      .ok ([123, 34, 125], 0x1) :=
  (claim_C5_frame_roundtrip ⟨fun l => l, fun l => .ok l⟩ [123, 34, 125] 1
    rfl (by decide)).2

end Asr
